import Mathlib

/-!
Verification of the mumbling-toad terminal crawler dashboard.

This file gives a shallow embedding, in Lean 4, of the parts of the
TypeScript source that the specification's claims are about:

* `src/scrollbar.ts` — the scrollbar geometry calculator `computeScrollbar`;
* `src/mouse-parser.ts` — the SGR mouse protocol decoder `parseMouseEvent`;
* `src/crawler/extractor.ts` — the SEO indexability classifier inside
  `extractSeoData`;
* `src/crawler/engine.ts` — the `CrawlEngine` class: its stats record, the
  `requestHandler` / `failedRequestHandler` callbacks, `pause` / `resume`
  and `stop`;
* `src/app.tsx` — the UI flush coordinator (the 200 ms flush interval and
  `onCrawlComplete`), and the wheel branch of `handleMouse`;
* `src/utils.ts` — the URL normalizer `normalizeUrl`;
* `src/components/sidebar.tsx` — the elapsed-time / pages-per-second
  computation in `buildStatRows`.

JavaScript numbers are embedded as `Nat` (counters, byte values),
`Int` (timestamps and their differences) or `Rat` (fractional
arithmetic that feeds `Math.round`).  JavaScript strings are Lean
`String`s, `undefined`-able values are `Option`s, and thrown
exceptions are `Except` errors.  Stateful class methods become pure
functions from the engine state to a new state plus the list of
callback invocations they perform.
-/

namespace MumblingToad

/-- Decidable equality for `Except`, so that results of fallible
operations can be checked on concrete inputs. -/
instance {ε α : Type} [DecidableEq ε] [DecidableEq α] :
    DecidableEq (Except ε α) := fun x y =>
  match x, y with
  | .ok a, .ok b =>
    if h : a = b then isTrue (by rw [h]) else isFalse (by simp [h])
  | .error e, .error f =>
    if h : e = f then isTrue (by rw [h]) else isFalse (by simp [h])
  | .ok _, .error _ => isFalse (by simp)
  | .error _, .ok _ => isFalse (by simp)

/-! ## Scrollbar geometry (`src/scrollbar.ts`) -/

/-- `Math.round(a / b)` for an integer numerator `a` and positive integer
denominator `b`, that is `⌊a/b + 1/2⌋`, computed by integer division so
the kernel can evaluate it; `jsRoundDiv_eq_floor` below proves it equal to
the floor form. -/
def jsRoundDiv (a : ℤ) (b : ℕ) : ℤ := (2 * a + b) / (2 * (b : ℤ))

/-- Result record of `computeScrollbar` (`ScrollbarResult`). -/
structure ScrollbarResult where
  thumbStart : ℤ
  thumbEnd : ℤ
  trackHeight : ℤ
deriving DecidableEq, Repr

/-- Embedding of `computeScrollbar` from `src/scrollbar.ts`.  The two
`Math.round` applications are on the exact rationals
`visibleRows/totalRows * trackHeight` and
`scrollOffset/maxScroll * (trackHeight - thumbSize)`, written as single
fractions for `jsRoundDiv`. -/
def computeScrollbar (totalRows visibleRows scrollOffset trackHeight : ℕ) :
    ScrollbarResult :=
  if totalRows ≤ visibleRows then
    { thumbStart := 0, thumbEnd := trackHeight, trackHeight := trackHeight }
  else
    let thumbSize : ℤ :=
      max 1 (jsRoundDiv ((visibleRows : ℤ) * (trackHeight : ℤ)) totalRows)
    let maxScroll : ℕ := max 1 (totalRows - visibleRows)
    let thumbStart : ℤ :=
      jsRoundDiv ((scrollOffset : ℤ) * ((trackHeight : ℤ) - thumbSize)) maxScroll
    { thumbStart := thumbStart, thumbEnd := thumbStart + thumbSize,
      trackHeight := trackHeight }

end MumblingToad

namespace MumblingToad

/-! ## SGR mouse protocol decoder (`src/mouse-parser.ts`) -/

/-- The `type` field of a decoded mouse event. -/
inductive MouseType where
  | press
  | release
  | wheel
deriving DecidableEq, Repr

/-- The `modifiers` field of a decoded mouse event. -/
structure Modifiers where
  shift : Bool
  alt : Bool
  ctrl : Bool
deriving DecidableEq, Repr

/-- The `MouseEvent` interface of `src/mouse-parser.ts`. -/
structure MouseEvent where
  button : ℕ
  x : ℕ
  y : ℕ
  type : MouseType
  modifiers : Modifiers
deriving DecidableEq, Repr

/-- Numeric value of a run of decimal digit characters, most significant
first — the embedding of `parseInt(run, 10)` on the regex captures, which
are guaranteed to be nonempty digit runs. -/
def digitsVal (ds : List Char) : ℕ :=
  ds.foldl (fun a c => a * 10 + (c.toNat - 48)) 0

/-- One attempt of the regex `\x1b\[<(\d+);(\d+);(\d+)([Mm])` at the head of
the character list: returns the three captured numbers and the terminator
character on success. -/
def matchAt (cs : List Char) : Option (ℕ × ℕ × ℕ × Char) :=
  match cs with
  | '\x1b' :: '[' :: '<' :: rest =>
    let d1 := rest.takeWhile Char.isDigit
    let r1 := rest.dropWhile Char.isDigit
    if d1 = [] then none else
    match r1 with
    | ';' :: r2 =>
      let d2 := r2.takeWhile Char.isDigit
      let r3 := r2.dropWhile Char.isDigit
      if d2 = [] then none else
      match r3 with
      | ';' :: r4 =>
        let d3 := r4.takeWhile Char.isDigit
        let r5 := r4.dropWhile Char.isDigit
        if d3 = [] then none else
        match r5 with
        | t :: _ =>
          if t = 'M' ∨ t = 'm' then
            some (digitsVal d1, digitsVal d2, digitsVal d3, t)
          else none
        | [] => none
      | _ => none
    | _ => none
  | _ => none

/-- Leftmost match of the mouse-sequence regex in the string, as performed by
`str.match(regex)` in `parseMouseEvent`. -/
def findMatch : List Char → Option (ℕ × ℕ × ℕ × Char)
  | [] => none
  | c :: cs =>
    match matchAt (c :: cs) with
    | some r => some r
    | none => findMatch cs

/-- Embedding of `parseMouseEvent` from `src/mouse-parser.ts`.  The input is
the received byte sequence viewed as characters; `none` is the `null`
result. -/
def parseMouseEvent (data : List Char) : Option MouseEvent :=
  match findMatch data with
  | none => none
  | some (button, x, y, t) =>
    let eventType : MouseType := if t = 'M' then .press else .release
    let modifiers : Modifiers :=
      { shift := button &&& 4 != 0
        alt := button &&& 8 != 0
        ctrl := button &&& 16 != 0 }
    if button &&& 64 ≠ 0 then
      some { button := button, x := x, y := y, type := .wheel,
             modifiers := modifiers }
    else
      some { button := button &&& 3, x := x, y := y, type := eventType,
             modifiers := modifiers }

/-- The decimal digit characters. -/
def digitChar (d : ℕ) : Char :=
  match d with
  | 0 => '0' | 1 => '1' | 2 => '2' | 3 => '3' | 4 => '4'
  | 5 => '5' | 6 => '6' | 7 => '7' | 8 => '8' | 9 => '9'
  | _ => '*'

/-- Little-endian base-10 digits, computed with explicit fuel so that the
kernel can evaluate it; proved equal to `Nat.digits 10` below. -/
def toDecimalAux : ℕ → ℕ → List ℕ
  | 0, _ => []
  | fuel + 1, n => if n = 0 then [] else (n % 10) :: toDecimalAux fuel (n / 10)

/-- Little-endian base-10 digits of `n`. -/
def decimalDigits (n : ℕ) : List ℕ := toDecimalAux n n

/-- Decimal representation of a natural number, most significant digit
first — the embedding of JavaScript's number-to-string conversion for
non-negative integers. -/
def decimalRepr (n : ℕ) : List Char :=
  if n = 0 then ['0'] else (decimalDigits n).reverse.map digitChar

/-- A well-formed SGR pointer sequence on the wire:
`ESC [ <` then the button code, `;`, the column, `;`, the row, and the
terminator character directly after the row. -/
def mouseSeq (b x y : ℕ) (t : Char) : List Char :=
  '\x1b' :: '[' :: '<' ::
    (decimalRepr b ++ ';' :: (decimalRepr x ++ ';' :: (decimalRepr y ++ [t])))

/-- The wheel branch of `handleMouse` in `src/app.tsx`:
`const delta = event.button === 64 ? -1 : 1`. -/
def wheelDelta (e : MouseEvent) : ℤ :=
  if e.button = 64 then -1 else 1

/-! ## JavaScript string primitives

The embeddings below work on `String.data` so that every operation is
structurally recursive and evaluates inside the kernel.  They model the
corresponding `String.prototype` methods for the ASCII data this program
handles. -/

/-- `String.prototype.toLowerCase` (ASCII). -/
def jsToLower (s : String) : String := String.mk (s.data.map Char.toLower)

/-- `String.prototype.includes`. -/
def jsIncludes (s pat : String) : Bool := decide (pat.data <:+: s.data)

/-- `String.prototype.trim`. -/
def jsTrim (s : String) : String :=
  String.mk
    (((s.data.dropWhile Char.isWhitespace).reverse.dropWhile
      Char.isWhitespace).reverse)

/-- `String.prototype.startsWith`. -/
def jsStartsWith (s pre : String) : Bool := pre.data.isPrefixOf s.data

/-- `String.prototype.endsWith`. -/
def jsEndsWith (s suf : String) : Bool := suf.data.isSuffixOf s.data

/-- `Array.prototype.join(',')` on an array of strings. -/
def joinComma (ss : List String) : String :=
  String.mk (List.intercalate [','] (ss.map String.data))

/-- JavaScript number-to-string interpolation for a non-negative integer,
`${n}`. -/
def natToString (n : ℕ) : String := String.mk (decimalRepr n)

/-- `contentType.split(';')[0]!.trim()` from `src/crawler/engine.ts`:
everything before the first `;`, trimmed. -/
def mimeOf (contentType : String) : String :=
  jsTrim (String.mk (contentType.data.takeWhile (fun c => c ≠ ';')))

/-- JavaScript `a || b` for an optional string `a` (both `undefined` and the
empty string are falsy). -/
def jsOrStr (a : Option String) (b : String) : String :=
  match a with
  | some s => if s = "" then b else s
  | none => b

/-- JavaScript `a || b` for an optional number `a` (both `undefined` and `0`
are falsy). -/
def jsOrNat (a : Option ℕ) (b : ℕ) : ℕ :=
  match a with
  | some n => if n = 0 then b else n
  | none => b

/-! ## SEO indexability classifier (`src/crawler/extractor.ts`) -/

/-- The `x-robots-tag` response header as Node delivers it:
absent, a single string, or an array of strings. -/
inductive HeaderValue where
  | absent
  | single (s : String)
  | multi (ss : List String)
deriving DecidableEq, Repr

/-- `Array.isArray(xRobotsTag) ? xRobotsTag.join(',') : (xRobotsTag || '')`. -/
def headerJoin : HeaderValue → String
  | .absent => ""
  | .single s => s
  | .multi ss => joinComma ss

/-- `$('meta[name="robots"]').attr('content')?.toLowerCase() || ''`. -/
def optLower (a : Option String) : String :=
  match a with
  | some s => if jsToLower s = "" then "" else jsToLower s
  | none => ""

/-- `request.loadedUrl || request.url`. -/
def jsOrUrl (loadedUrl : Option String) (url : String) : String :=
  jsOrStr loadedUrl url

/-- The per-page signals the indexability portion of `extractSeoData` reads. -/
structure IndexabilitySignals where
  robotsMetaAttr : Option String
  xRobotsTag : HeaderValue
  canonicalAttr : Option String
  url : String
  loadedUrl : Option String
  statusCode : ℕ
deriving Repr

/-- Embedding of checks 1–4 of `extractSeoData`
(`src/crawler/extractor.ts`, lines 44–84), the indexability classifier.
The private URL-comparison helper `normalizeUrl(url, baseUrl?)` of that
file wraps the WHATWG `URL` constructor; it is passed in as the parameter
`norm` (first argument the URL, second the optional base), since none of
the ordering properties depend on its internals.  Returns
`(isIndexable, indexabilityReason)`. -/
def indexability (norm : String → Option String → String)
    (sig : IndexabilitySignals) : Bool × Option String :=
  let statusCheck : Bool × Option String :=
    if sig.statusCode ≥ 400 then
      (false, some ("HTTP " ++ natToString sig.statusCode))
    else (true, none)
  let robotsMeta := optLower sig.robotsMetaAttr
  if jsIncludes robotsMeta "noindex" then
    (false, some "noindex meta tag")
  else
    let xRobotsValue := headerJoin sig.xRobotsTag
    if jsIncludes (jsToLower xRobotsValue) "noindex" then
      (false, some "X-Robots-Tag noindex")
    else
      match sig.canonicalAttr with
      | some canonicalUrl =>
        if canonicalUrl ≠ "" then
          let current := jsOrUrl sig.loadedUrl sig.url
          if norm canonicalUrl (some current) ≠ norm current none then
            (false, some "canonical mismatch")
          else statusCheck
        else statusCheck
      | none => statusCheck

/-! ## Crawl session engine (`src/crawler/engine.ts`) -/

/-- The `PageData` record of `src/crawler/types.ts` as the engine builds
it. -/
structure PageData where
  url : String
  finalUrl : String
  statusCode : ℕ
  responseTimeMs : ℤ
  contentType : String
  title : String
  h1 : String
  metaDescription : String
  wordCount : ℕ
  isIndexable : Bool
  indexabilityReason : Option String
deriving DecidableEq, Repr

/-- The `CrawlStats` record of the engine.  The string-keyed counter
objects `statusCodes` and `contentTypes` are insertion-ordered association
lists. -/
structure CrawlStats where
  pagesCrawled : ℕ
  pagesInQueue : ℕ
  errors : ℕ
  startTime : ℤ
  uniqueUrlsFound : ℕ
  indexableCount : ℕ
  nonIndexableCount : ℕ
  statusCodes : List (String × ℕ)
  contentTypes : List (String × ℕ)
  totalResponseTimeMs : ℤ
  pausedDurationMs : ℤ
deriving DecidableEq, Repr

/-- `obj[key] = (obj[key] || 0) + 1` on a string-keyed counter object. -/
def bumpCount (m : List (String × ℕ)) (k : String) : List (String × ℕ) :=
  if (m.lookup k).isSome then
    m.map (fun p => if p.1 = k then (p.1, p.2 + 1) else p)
  else m ++ [(k, 1)]

/-- The initial `stats` field of a fresh `CrawlEngine`. -/
def initialStats : CrawlStats :=
  { pagesCrawled := 0, pagesInQueue := 0, errors := 0, startTime := 0,
    uniqueUrlsFound := 0, indexableCount := 0, nonIndexableCount := 0,
    statusCodes := [], contentTypes := [], totalResponseTimeMs := 0,
    pausedDurationMs := 0 }

/-- The mutable fields of a `CrawlEngine`: `crawler` and `statsInterval`
are `null`-or-not flags, the rest as in the class. -/
structure EngineState where
  crawler : Bool
  statsInterval : Bool
  pages : List PageData
  isRunning : Bool
  isPaused : Bool
  pausedAt : ℤ
  stats : CrawlStats
deriving Repr

/-- The callback invocations an engine operation performs, in order. -/
inductive EngineEvent where
  | pageCrawled (p : PageData)
  | statsUpdate (s : CrawlStats)
  | crawlComplete (pages : List PageData) (stats : CrawlStats)
  | crawlError (errorMessage : String) (url : String)
  | logMessage (level message : String)
deriving Repr

/-- The spec's stats invariant:
`indexableCount + nonIndexableCount == pagesCrawled`. -/
def statsInvariant (st : CrawlStats) : Prop :=
  st.indexableCount + st.nonIndexableCount = st.pagesCrawled

/-- The field values of a freshly constructed `CrawlEngine`. -/
def initialEngineState : EngineState :=
  { crawler := false, statsInterval := false, pages := [],
    isRunning := false, isPaused := false, pausedAt := 0,
    stats := initialStats }

/-- A concrete `PageData` record, for evaluating the lemmas on a
specific input. -/
def samplePage : PageData :=
  { url := "https://example.com/", finalUrl := "https://example.com/",
    statusCode := 200, responseTimeMs := 12, contentType := "text/html",
    title := "Example", h1 := "Example", metaDescription := "",
    wordCount := 2, isIndexable := true, indexabilityReason := none }

/-- A concrete engine state mid-crawl: running, one page recorded. -/
def sampleRunningState : EngineState :=
  { crawler := true, statsInterval := true, pages := [samplePage],
    isRunning := true, isPaused := false, pausedAt := 0,
    stats := { initialStats with
                 pagesCrawled := 1
                 indexableCount := 1
                 startTime := 1 } }

/-- Number of `crawlComplete` invocations in an event list. -/
def countComplete (events : List EngineEvent) : ℕ :=
  (events.filter fun e =>
    match e with
    | .crawlComplete _ _ => true
    | _ => false).length

namespace CrawlEngine

/-- `CrawlEngine.pause`, with `Date.now()` passed in as `now`. -/
def pause (s : EngineState) (now : ℤ) : EngineState :=
  if ¬ s.isRunning ∨ s.isPaused then s
  else { s with isPaused := true, pausedAt := now }

/-- `CrawlEngine.resume`, with `Date.now()` passed in as `now`. -/
def resume (s : EngineState) (now : ℤ) : EngineState :=
  if ¬ s.isPaused then s
  else
    let s := { s with isPaused := false }
    if s.pausedAt > 0 then
      { s with
        stats := { s.stats with
          pausedDurationMs := s.stats.pausedDurationMs + (now - s.pausedAt) }
        pausedAt := 0 }
    else s

/-- `CrawlEngine.togglePause`. -/
def togglePause (s : EngineState) (now : ℤ) : EngineState :=
  if s.isPaused then resume s now else pause s now

/-- The per-request data the `requestHandler` closure reads from Crawlee's
context: `request.url`, `request.loadedUrl`, `response?.statusCode`,
`response?.headers?.['content-type']`, and the elapsed
`Date.now() - request.userData.startTime`. -/
structure RequestInfo where
  url : String
  loadedUrl : Option String
  responseStatus : Option ℕ
  responseContentType : Option String
  responseTimeMs : ℤ
deriving Repr

/-- The record `extractSeoData` returns (spread into `pageData` in the
HTML branch of the request handler). -/
structure SeoData where
  title : String
  h1 : String
  metaDescription : String
  wordCount : ℕ
  isIndexable : Bool
  indexabilityReason : Option String
  contentType : String
  statusCode : ℕ
deriving Repr

/-- Embedding of the `requestHandler` closure of `CrawlEngine.start`
(`src/crawler/engine.ts`, lines 109–165).  `cheerio` is `some seoData`
when the Cheerio handle `$` is available, carrying the `extractSeoData`
result; the `enqueueLinks` call has no effect on engine state.  Returns
the new state and the callback invocations performed. -/
def requestHandler (s : EngineState) (req : RequestInfo)
    (cheerio : Option SeoData) : EngineState × List EngineEvent :=
  let responseTimeMs := req.responseTimeMs
  let statusCode := jsOrNat req.responseStatus 200
  let contentType := jsOrStr req.responseContentType "text/html"
  let isHtml := jsIncludes contentType "text/html" ||
    jsIncludes contentType "application/xhtml"
  let pageData : PageData :=
    match isHtml, cheerio with
    | true, some seoData =>
      { url := req.url
        finalUrl := jsOrUrl req.loadedUrl req.url
        statusCode := seoData.statusCode
        responseTimeMs := responseTimeMs
        contentType := seoData.contentType
        title := seoData.title
        h1 := seoData.h1
        metaDescription := seoData.metaDescription
        wordCount := seoData.wordCount
        isIndexable := seoData.isIndexable
        indexabilityReason := seoData.indexabilityReason }
    | _, _ =>
      { url := req.url
        finalUrl := jsOrUrl req.loadedUrl req.url
        statusCode := statusCode
        responseTimeMs := responseTimeMs
        contentType := contentType
        title := ""
        h1 := ""
        metaDescription := ""
        wordCount := 0
        isIndexable := false
        indexabilityReason := some "non-HTML content" }
  let stats := s.stats
  let stats := { stats with
    pagesCrawled := stats.pagesCrawled + 1
    totalResponseTimeMs := stats.totalResponseTimeMs + responseTimeMs }
  let stats :=
    if pageData.isIndexable then
      { stats with indexableCount := stats.indexableCount + 1 }
    else
      { stats with nonIndexableCount := stats.nonIndexableCount + 1 }
  let statusCategory := natToString (statusCode / 100) ++ "xx"
  let stats := { stats with
    statusCodes := bumpCount stats.statusCodes statusCategory }
  let mimeType := mimeOf contentType
  let stats := { stats with
    contentTypes := bumpCount stats.contentTypes mimeType }
  ({ s with pages := s.pages ++ [pageData], stats := stats },
   [.pageCrawled pageData])

/-- Embedding of the `failedRequestHandler` closure
(`src/crawler/engine.ts`, lines 167–198).  `mimeMatch` is the result of
matching `errorMessage` against the content-type-rejection regex
`/served Content-Type (\S+),.*only .* are allowed/` — `some capture` when
the failure is a disallowed-content-type rejection, `none` otherwise; the
matcher itself is a JavaScript regex and is passed in pre-applied. -/
def failedRequestHandler (s : EngineState) (url : String)
    (loadedUrl : Option String) (errorMessage : String)
    (mimeMatch : Option String) : EngineState × List EngineEvent :=
  match mimeMatch with
  | some contentType =>
    let mimeType := mimeOf contentType
    let pageData : PageData :=
      { url := url
        finalUrl := jsOrUrl loadedUrl url
        statusCode := 200
        responseTimeMs := 0
        contentType := contentType
        title := ""
        h1 := ""
        metaDescription := ""
        wordCount := 0
        isIndexable := false
        indexabilityReason := some "non-HTML content" }
    ({ s with
        pages := s.pages ++ [pageData]
        stats := { s.stats with
          pagesCrawled := s.stats.pagesCrawled + 1
          nonIndexableCount := s.stats.nonIndexableCount + 1
          contentTypes := bumpCount s.stats.contentTypes mimeType } },
     [.pageCrawled pageData])
  | none =>
    ({ s with stats := { s.stats with errors := s.stats.errors + 1 } },
     [.crawlError errorMessage url])

/-- Embedding of `CrawlEngine.stop` (`src/crawler/engine.ts`,
lines 249–283).  `now` is `Date.now()` for the embedded `resume` call;
`teardownError` is `some message` when the awaited
`requestQueue`/`teardown` block throws, `none` when it completes (or is
skipped because the queue is gone); `hasLogCallback` is whether the
optional `onLogMessage` callback was supplied.  Returns the new state and
the callback invocations performed. -/
def stop (s : EngineState) (now : ℤ) (teardownError : Option String)
    (hasLogCallback : Bool) : EngineState × List EngineEvent :=
  if ¬ s.isRunning then (s, [])
  else
    let s := { s with isRunning := false }
    let s := if s.isPaused then resume s now else s
    let s := { s with statsInterval := false }
    let sAndLog : EngineState × List EngineEvent :=
      if s.crawler then
        ({ s with crawler := false },
         match teardownError with
         | some message =>
           if hasLogCallback then
             [.logMessage "ERROR"
               ("Error during crawler teardown: " ++ message)]
           else []
         | none => [])
      else (s, [])
    let s := sAndLog.1
    let completeEvents : List EngineEvent :=
      if s.pages.length > 0 ∨ s.stats.pagesCrawled > 0 then
        [.crawlComplete s.pages s.stats]
      else []
    (s, sAndLog.2 ++ completeEvents)

end CrawlEngine

/-! ## UI flush coordinator (`src/app.tsx`) -/

/-- The App-side state the flush coordinator touches: the
`pageBuffer` ref, the `pages` React state, and whether the 200 ms flush
interval is installed (`flushIntervalRef.current !== null`). -/
structure UIState where
  pageBuffer : List PageData
  pages : List PageData
  flushInterval : Bool
deriving Repr

/-- The state after the mount effect has installed the flush interval. -/
def initialUIState : UIState :=
  { pageBuffer := [], pages := [], flushInterval := true }

/-- The body of the 200 ms flush interval (`src/app.tsx`, lines 76–91):
`if (pageBuffer.current.length > 0) { const batch =
pageBuffer.current.splice(0); setPages(prev => [...prev, ...batch]); }`.
The `splice(0)` take-and-clear and the functional `setPages` update are a
single step. -/
def flushTick (u : UIState) : UIState :=
  if u.pageBuffer.length > 0 then
    { u with pageBuffer := [], pages := u.pages ++ u.pageBuffer }
  else u

/-- The `onPageCrawled` callback in `src/app.tsx`: push to the buffer,
not to state. -/
def uiOnPageCrawled (u : UIState) (p : PageData) : UIState :=
  { u with pageBuffer := u.pageBuffer ++ [p] }

/-- The first half of `onCrawlComplete` (`src/app.tsx`, lines 105–109):
clear the flush interval to prevent a double flush. -/
def cancelFlushTimer (u : UIState) : UIState :=
  if u.flushInterval then { u with flushInterval := false } else u

/-- The second half of `onCrawlComplete` (`src/app.tsx`, lines 111–115):
`const remaining = pageBuffer.current.splice(0); if (remaining.length > 0)
setPages(prev => [...prev, ...remaining]);`. -/
def finalFlush (u : UIState) : UIState :=
  let remaining := u.pageBuffer
  let u := { u with pageBuffer := [] }
  if remaining.length > 0 then { u with pages := u.pages ++ remaining }
  else u

/-- `onCrawlComplete` in `src/app.tsx`: cancel the flush timer, then
perform the one final flush. -/
def uiOnCrawlComplete (u : UIState) : UIState := finalFlush (cancelFlushTimer u)

/-- The events that touch the buffer or the display list, as scheduled on
the single-threaded event loop. -/
inductive UIEvent where
  | append (p : PageData)
  | tick
  | complete
deriving Repr

/-- One scheduling step of the cooperative loop.  A `tick` only fires
while the interval is installed (`clearInterval` stops further ticks). -/
def uiStep (u : UIState) : UIEvent → UIState
  | .append p => uiOnPageCrawled u p
  | .tick => if u.flushInterval then flushTick u else u
  | .complete => uiOnCrawlComplete u

/-- Run an arbitrary interleaving of appends, flush ticks and the
completion callback. -/
def uiRun (u : UIState) (events : List UIEvent) : UIState :=
  events.foldl uiStep u

/-- The records appended by a trace of events, in order. -/
def appendedPages : List UIEvent → List PageData
  | [] => []
  | .append p :: events => p :: appendedPages events
  | _ :: events => appendedPages events

/-! ## URL normalizer (`src/utils.ts`) -/

/-- The components of a parsed WHATWG `URL` that `normalizeUrl` reads:
`protocol` (scheme without the colon), `hostname`, `port`, `pathname`,
`search` (with its `?`) and `hash` (with its `#`). -/
structure URLRecord where
  scheme : String
  hostname : String
  port : String
  pathname : String
  search : String
  hash : String
deriving DecidableEq, Repr

/-- Scheme characters after the first (which must be a letter). -/
def isSchemeChar (c : Char) : Bool :=
  c.isAlpha || c.isDigit || c = '+' || c = '-' || c = '.'

/-- Split `scheme ':' rest` off a character list. -/
def schemeSplit : List Char → Option (List Char × List Char)
  | [] => none
  | c :: cs =>
    if c = ':' then some ([], cs)
    else if isSchemeChar c then
      match schemeSplit cs with
      | some (sch, rest) => some (c :: sch, rest)
      | none => none
    else none

/-- The WHATWG forbidden host code points (ASCII portion). -/
def forbiddenHostChar (c : Char) : Bool :=
  c = '\x00' || c = '\t' || c = '\n' || c = '\r' || c = ' ' || c = '#' ||
  c = '/' || c = ':' || c = '<' || c = '>' || c = '?' || c = '@' ||
  c = '[' || c = '\\' || c = ']' || c = '^' || c = '|'

/-- Model of the WHATWG `URL` constructor (`new URL(input)`) for the
special schemes `http`/`https`, which is the only way `normalizeUrl` in
`src/utils.ts` reaches it (the input always carries an `http(s)://`
prefix by then).  Follows the URL Standard's basic parser for this
fragment: scheme, then any run of slashes, then the authority up to the
first `/`, `?` or `#` (userinfo before the last `@` is dropped, the part
after the first `:` is the port, which must be digits and is dropped when
empty or equal to the scheme's default), then path, query and fragment.
Hosts are lowercased and must be nonempty and free of forbidden host code
points; IDNA mapping and percent-decoding are outside the model.  Errors
are the `TypeError`s the constructor throws. -/
def parseURL (input : String) : Except String URLRecord :=
  match schemeSplit input.data with
  | none => .error "Invalid URL"
  | some (schemeCs, rest) =>
    match schemeCs with
    | [] => .error "Invalid URL"
    | c0 :: _ =>
      if ¬ c0.isAlpha then .error "Invalid URL"
      else
        let scheme := String.mk (schemeCs.map Char.toLower)
        if scheme ≠ "http" ∧ scheme ≠ "https" then .error "Invalid URL"
        else
          let rest := rest.dropWhile (fun c => c = '/' || c = '\\')
          let isAuthorityEnd := fun (c : Char) => c = '/' || c = '?' || c = '#'
          let authority := rest.takeWhile (fun c => ¬ isAuthorityEnd c)
          let afterAuthority := rest.dropWhile (fun c => ¬ isAuthorityEnd c)
          let hostPort :=
            if authority.contains '@' then
              (authority.reverse.takeWhile (fun c => c ≠ '@')).reverse
            else authority
          let host := hostPort.takeWhile (fun c => c ≠ ':')
          let portCs := (hostPort.dropWhile (fun c => c ≠ ':')).drop 1
          if host = [] then .error "Invalid URL"
          else if host.any forbiddenHostChar then .error "Invalid URL"
          else if ¬ portCs.all Char.isDigit then .error "Invalid URL"
          else
            let hostname := String.mk (host.map Char.toLower)
            let defaultPort := if scheme = "https" then 443 else 80
            let port :=
              if portCs = [] ∨ digitsVal portCs = defaultPort then ""
              else natToString (digitsVal portCs)
            let pathCs :=
              afterAuthority.takeWhile (fun c => c ≠ '?' ∧ c ≠ '#')
            let pathname :=
              if pathCs = [] then "/" else String.mk pathCs
            let qf := afterAuthority.dropWhile (fun c => c ≠ '?' ∧ c ≠ '#')
            let search := String.mk (qf.takeWhile (fun c => c ≠ '#'))
            let hash := String.mk (qf.dropWhile (fun c => c ≠ '#'))
            .ok { scheme := scheme, hostname := hostname, port := port,
                  pathname := pathname, search := search, hash := hash }

/-- `URL.prototype.href` for the records `parseURL` produces. -/
def URLRecord.href (u : URLRecord) : String :=
  u.scheme ++ "://" ++ u.hostname ++
    (if u.port = "" then "" else ":" ++ u.port) ++
    u.pathname ++ u.search ++ u.hash

/-- The regex test `url.match(/^https?:\/\//i)`. -/
def hasHttpScheme (url : String) : Bool :=
  jsStartsWith (jsToLower url) "http://" ||
    jsStartsWith (jsToLower url) "https://"

/-- `/^[a-zA-Z0-9.-]+$/` on the parsed hostname. -/
def hostnameOk (h : String) : Bool :=
  h ≠ "" && h.data.all (fun c => c.isAlpha || c.isDigit || c = '.' || c = '-')

/-- Embedding of `normalizeUrl` from `src/utils.ts`: trim, prepend
`https://` when the input does not start with `http://`/`https://`, parse,
validate protocol and hostname, strip one trailing slash from a non-root
pathname, and return the rebuilt `href`.  The thrown
`Error('Invalid URL format')` is the `Except.error` case. -/
def normalizeUrl (input : String) : Except String String :=
  let url := jsTrim input
  let url := if ¬ hasHttpScheme url then "https://" ++ url else url
  match parseURL url with
  | .error _ => .error "Invalid URL format"
  | .ok parsed =>
    if parsed.scheme ≠ "http" ∧ parsed.scheme ≠ "https" then
      .error "Invalid URL format"
    else if ¬ hostnameOk parsed.hostname then
      .error "Invalid URL format"
    else
      let parsed :=
        if jsEndsWith parsed.pathname "/" ∧ parsed.pathname.data.length > 1 then
          { parsed with pathname := String.mk parsed.pathname.data.dropLast }
        else parsed
      .ok parsed.href

/-- `validateUrl` from `src/utils.ts`. -/
def validateUrl (input : String) : Bool :=
  match normalizeUrl input with
  | .ok _ => true
  | .error _ => false

/-! ## Sidebar statistics (`src/components/sidebar.tsx`) -/

/-- The elapsed-time computation at the top of `buildStatRows`:
`stats.startTime > 0 ? Date.now() - stats.startTime -
stats.pausedDurationMs : 0`. -/
def elapsedMs (stats : CrawlStats) (now : ℤ) : ℤ :=
  if stats.startTime > 0 then now - stats.startTime - stats.pausedDurationMs
  else 0

/-- The pages-per-second metric of `buildStatRows` (before the
`toFixed(1)` display formatting): `pagesCrawled / (elapsedMs / 1000)` when
the elapsed time is positive, else zero. -/
def pagesPerSecond (stats : CrawlStats) (now : ℤ) : ℚ :=
  let elapsedSeconds : ℚ := (elapsedMs stats now : ℚ) / 1000
  if elapsedSeconds > 0 then (stats.pagesCrawled : ℚ) / elapsedSeconds else 0

theorem jsRoundDiv_eq_floor (a : ℤ) (b : ℕ) (hb : 0 < b) :
    jsRoundDiv a b = ⌊(a : ℚ) / (b : ℚ) + 1/2⌋ := by
  have h2 : ((2 * a + b : ℤ) : ℚ) / ((2 * b : ℕ) : ℚ) =
      (a : ℚ) / (b : ℚ) + 1/2 := by
    have hb' : ((b : ℚ)) ≠ 0 := by positivity
    push_cast
    field_simp
    ring
  rw [jsRoundDiv, show (2 * (b : ℤ)) = ((2 * b : ℕ) : ℤ) by push_cast; ring,
    ← Rat.floor_intCast_div_natCast, h2]

theorem digitChar_isDigit {d : ℕ} (hd : d < 10) : (digitChar d).isDigit = true := by
  interval_cases d <;> rfl

theorem digitChar_toNat {d : ℕ} (hd : d < 10) : (digitChar d).toNat = 48 + d := by
  interval_cases d <;> rfl

theorem toDecimalAux_eq (fuel n : ℕ) (h : n ≤ fuel) :
    toDecimalAux fuel n = Nat.digits 10 n := by
  induction fuel generalizing n with
  | zero => interval_cases n; simp [toDecimalAux]
  | succ fuel ih =>
    rcases Nat.eq_zero_or_pos n with rfl | hn
    · simp [toDecimalAux]
    · rw [toDecimalAux, if_neg hn.ne', Nat.digits_def' (by norm_num : 1 < 10) hn,
        ih _ (by omega : n / 10 ≤ fuel)]

theorem decimalDigits_eq (n : ℕ) : decimalDigits n = Nat.digits 10 n :=
  toDecimalAux_eq n n le_rfl

theorem decimalRepr_ne_nil (n : ℕ) : decimalRepr n ≠ [] := by
  unfold decimalRepr
  split
  · simp
  · simp [decimalDigits_eq, Nat.digits_ne_nil_iff_ne_zero, *]

theorem decimalRepr_digits {n : ℕ} {c : Char} (hc : c ∈ decimalRepr n) :
    c.isDigit = true := by
  unfold decimalRepr at hc
  split at hc
  · simp at hc; subst hc; rfl
  · rw [decimalDigits_eq] at hc
    simp only [List.mem_map, List.mem_reverse] at hc
    obtain ⟨d, hd, rfl⟩ := hc
    exact digitChar_isDigit (Nat.digits_lt_base (by norm_num) hd)

theorem takeWhile_all_append {l r : List Char} (hl : ∀ a ∈ l, a.isDigit = true) :
    (l ++ r).takeWhile Char.isDigit = l ++ r.takeWhile Char.isDigit := by
  induction l with
  | nil => simp
  | cons a l ih =>
    have ha : a.isDigit = true := hl a (by simp)
    simp only [List.cons_append, List.takeWhile_cons, ha, if_true]
    rw [ih fun b hb => hl b (by simp [hb])]

theorem dropWhile_all_append {l r : List Char} (hl : ∀ a ∈ l, a.isDigit = true) :
    (l ++ r).dropWhile Char.isDigit = r.dropWhile Char.isDigit := by
  induction l with
  | nil => simp
  | cons a l ih =>
    have ha : a.isDigit = true := hl a (by simp)
    simp only [List.cons_append, List.dropWhile_cons, ha, if_true]
    exact ih fun b hb => hl b (by simp [hb])

theorem takeWhile_repr_semi (n : ℕ) (r : List Char) :
    (decimalRepr n ++ ';' :: r).takeWhile Char.isDigit = decimalRepr n := by
  rw [takeWhile_all_append fun a ha => decimalRepr_digits ha]
  simp [List.takeWhile_cons]

theorem dropWhile_repr_semi (n : ℕ) (r : List Char) :
    (decimalRepr n ++ ';' :: r).dropWhile Char.isDigit = ';' :: r := by
  rw [dropWhile_all_append fun a ha => decimalRepr_digits ha]
  simp [List.dropWhile_cons]

theorem takeWhile_repr_term (n : ℕ) (t : Char) (ht : t = 'M' ∨ t = 'm') :
    (decimalRepr n ++ [t]).takeWhile Char.isDigit = decimalRepr n := by
  rw [takeWhile_all_append fun a ha => decimalRepr_digits ha]
  rcases ht with rfl | rfl <;> simp [List.takeWhile_cons]

theorem dropWhile_repr_term (n : ℕ) (t : Char) (ht : t = 'M' ∨ t = 'm') :
    (decimalRepr n ++ [t]).dropWhile Char.isDigit = [t] := by
  rw [dropWhile_all_append fun a ha => decimalRepr_digits ha]
  rcases ht with rfl | rfl <;> simp [List.dropWhile_cons]

theorem foldl_mul_add_reverse (l : List ℕ) :
    l.reverse.foldl (fun a d => a * 10 + d) 0 = Nat.ofDigits 10 l := by
  induction l with
  | nil => simp [Nat.ofDigits]
  | cons d l ih =>
    rw [List.reverse_cons, List.foldl_concat, ih, Nat.ofDigits_cons]
    ring

theorem digitsVal_decimalRepr (n : ℕ) : digitsVal (decimalRepr n) = n := by
  unfold decimalRepr
  rw [decimalDigits_eq]
  split
  · subst n; rfl
  · unfold digitsVal
    rw [List.foldl_map]
    have hcongr :
        ∀ (l : List ℕ), (∀ d ∈ l, d < 10) → ∀ a : ℕ,
          l.foldl (fun a c => a * 10 + ((digitChar c).toNat - 48)) a =
            l.foldl (fun a d => a * 10 + d) a := by
      intro l
      induction l with
      | nil => intro _ _; rfl
      | cons d l ih =>
        intro hl a
        have hd : d < 10 := hl d (by simp)
        simp only [List.foldl_cons, digitChar_toNat hd, Nat.add_sub_cancel_left]
        exact ih (fun e he => hl e (by simp [he])) _
    rw [hcongr _ (fun d hd => Nat.digits_lt_base (by norm_num)
          (List.mem_reverse.mp hd))]
    rw [foldl_mul_add_reverse, Nat.ofDigits_digits]

theorem matchAt_mouseSeq (b x y : ℕ) (t : Char) (ht : t = 'M' ∨ t = 'm') :
    matchAt (mouseSeq b x y t) = some (b, x, y, t) := by
  show matchAt ('\x1b' :: '[' :: '<' :: (decimalRepr b ++ ';' :: (decimalRepr x ++
    ';' :: (decimalRepr y ++ [t])))) = some (b, x, y, t)
  simp only [matchAt, takeWhile_repr_semi, dropWhile_repr_semi,
    takeWhile_repr_term y t ht, dropWhile_repr_term y t ht,
    decimalRepr_ne_nil, if_neg, if_false, digitsVal_decimalRepr]
  simp [ht]

theorem findMatch_cons_some {c : Char} {cs : List Char} {r : ℕ × ℕ × ℕ × Char}
    (h : matchAt (c :: cs) = some r) : findMatch (c :: cs) = some r := by
  simp [findMatch, h]

theorem findMatch_mouseSeq (b x y : ℕ) (t : Char) (ht : t = 'M' ∨ t = 'm') :
    findMatch (mouseSeq b x y t) = some (b, x, y, t) :=
  findMatch_cons_some (matchAt_mouseSeq b x y t ht)

theorem and_two_pow_bne (b i : ℕ) : (b &&& 2 ^ i != 0) = b.testBit i := by
  have h2 : (2 : ℕ) ^ i ≠ 0 := (Nat.pow_pos (by norm_num)).ne'
  cases h : b.testBit i <;> simp [Nat.and_two_pow, h, h2]

theorem and_two_pow_ne (b i : ℕ) : (b &&& 2 ^ i ≠ 0) ↔ b.testBit i = true := by
  rw [← and_two_pow_bne b i]
  simp

theorem and4_bne (b : ℕ) : (b &&& 4 != 0) = b.testBit 2 := by
  have h := and_two_pow_bne b 2; norm_num at h; exact h

theorem and8_bne (b : ℕ) : (b &&& 8 != 0) = b.testBit 3 := by
  have h := and_two_pow_bne b 3; norm_num at h; exact h

theorem and16_bne (b : ℕ) : (b &&& 16 != 0) = b.testBit 4 := by
  have h := and_two_pow_bne b 4; norm_num at h; exact h

theorem and64_ne (b : ℕ) : (b &&& 64 ≠ 0) ↔ b.testBit 6 = true := by
  have h := and_two_pow_ne b 6; norm_num at h; exact h

/-- Full characterization of `parseMouseEvent` on a well-formed pointer
sequence, shared by the decoder theorems. -/
theorem parseMouseEvent_mouseSeq (b x y : ℕ) (t : Char)
    (ht : t = 'M' ∨ t = 'm') :
    parseMouseEvent (mouseSeq b x y t) =
      some { button := if b.testBit 6 then b else b &&& 3
             x := x
             y := y
             type := if b.testBit 6 then MouseType.wheel
                     else if t = 'M' then MouseType.press
                     else MouseType.release
             modifiers := { shift := b.testBit 2, alt := b.testBit 3,
                            ctrl := b.testBit 4 } } := by
  unfold parseMouseEvent
  rw [findMatch_mouseSeq b x y t ht]
  dsimp only
  by_cases h6 : b.testBit 6
  · rw [if_pos ((and64_ne b).mpr h6)]
    simp [and4_bne, and8_bne, and16_bne, h6]
  · rw [if_neg (fun hc => h6 ((and64_ne b).mp hc))]
    simp [and4_bne, and8_bne, and16_bne, h6]

/-- C8: for every well-formed pointer sequence `ESC [ < B ; X ; Y` +
terminator `T`, the decoder returns an event whose modifiers are bits 2
(shift), 3 (alt) and 4 (ctrl) of `B`; if bit 6 of `B` is set the event
type is `wheel` and the raw code is preserved in the `button` field (in
particular 64 for wheel-up and 65 for wheel-down), otherwise the button is
the base id `B &&& 3` and the type is `press` for `T = 'M'` and `release`
for `T = 'm'`; for every byte sequence in which the regex finds no match
the decoder returns `null` (and, being a total function, never throws). -/
theorem parseMouseEvent_spec :
    (∀ b x y : ℕ, ∀ t : Char, t = 'M' ∨ t = 'm' →
      parseMouseEvent (mouseSeq b x y t) =
        some { button := if b.testBit 6 then b else b &&& 3
               x := x
               y := y
               type := if b.testBit 6 then MouseType.wheel
                       else if t = 'M' then MouseType.press
                       else MouseType.release
               modifiers := { shift := b.testBit 2, alt := b.testBit 3,
                              ctrl := b.testBit 4 } }) ∧
    (∀ data : List Char, findMatch data = none →
      parseMouseEvent data = none) := by
  refine ⟨fun b x y t ht => parseMouseEvent_mouseSeq b x y t ht, ?_⟩
  intro data h
  unfold parseMouseEvent
  rw [h]

/-- Witness for C8 at `B = 21` (left button, shift+ctrl), `X = 3`,
`Y = 7`, release terminator. -/
theorem parseMouseEvent_spec_witness :
    parseMouseEvent (mouseSeq 21 3 7 'm') =
      some { button := if (21 : ℕ).testBit 6 then 21 else 21 &&& 3
             x := 3
             y := 7
             type := if (21 : ℕ).testBit 6 then MouseType.wheel
                     else if ('m' : Char) = 'M' then MouseType.press
                     else MouseType.release
             modifiers := { shift := (21 : ℕ).testBit 2,
                            alt := (21 : ℕ).testBit 3,
                            ctrl := (21 : ℕ).testBit 4 } } :=
  parseMouseEvent_spec.1 21 3 7 'm' (Or.inr rfl)

/-- C10 (implicit): for a button code with bit 6 set and modifier bits also
set, `parseMouseEvent` classifies the event as `wheel` but stores the full
unmasked code in `button`; so a modified wheel-up (`B = 68`) does not carry
button 64, and the `handleMouse` consumer, which maps `button === 64` to
scroll-up and everything else to scroll-down, treats it like wheel-down. -/
theorem wheel_modifier_unmasked :
    (∀ b x y : ℕ, b.testBit 6 = true →
      parseMouseEvent (mouseSeq b x y 'M') =
        some { button := b, x := x, y := y, type := MouseType.wheel,
               modifiers := { shift := b.testBit 2, alt := b.testBit 3,
                              ctrl := b.testBit 4 } }) ∧
    parseMouseEvent (mouseSeq 68 1 1 'M') =
      some { button := 68, x := 1, y := 1, type := MouseType.wheel,
             modifiers := { shift := true, alt := false, ctrl := false } } ∧
    wheelDelta { button := 68, x := 1, y := 1, type := MouseType.wheel,
                 modifiers := { shift := true, alt := false, ctrl := false } } = 1 ∧
    wheelDelta { button := 65, x := 1, y := 1, type := MouseType.wheel,
                 modifiers := { shift := false, alt := false, ctrl := false } } = 1 ∧
    wheelDelta { button := 64, x := 1, y := 1, type := MouseType.wheel,
                 modifiers := { shift := false, alt := false, ctrl := false } } = -1 := by
  refine ⟨?_, by decide, by decide, by decide, by decide⟩
  intro b x y h6
  rw [parseMouseEvent_mouseSeq b x y 'M' (Or.inl rfl)]
  simp [h6]

/-- Witness for C10 at `B = 72` (wheel-up plus alt). -/
theorem wheel_modifier_unmasked_witness :
    parseMouseEvent (mouseSeq 72 2 3 'M') =
      some { button := 72, x := 2, y := 3, type := MouseType.wheel,
             modifiers := { shift := false, alt := true, ctrl := false } } := by
  have h := wheel_modifier_unmasked.1 72 2 3 (by decide)
  rw [h]
  decide

/-- C7: for all non-negative integer inputs with `trackHeight ≥ 1`,
`computeScrollbar` returns `(0, trackHeight)` whenever
`totalRows ≤ visibleRows`, and otherwise returns
`thumbStart = round(scrollOffset / max(1, totalRows - visibleRows) *
(trackHeight - thumbSize))` and `thumbEnd = thumbStart + thumbSize` with
`thumbSize = max(1, round(visibleRows / totalRows * trackHeight))`
(`round x = ⌊x + 1/2⌋`); in every case the result satisfies
`thumbEnd - thumbStart ≥ 1`. -/
theorem computeScrollbar_spec
    (totalRows visibleRows scrollOffset trackHeight : ℕ)
    (htrack : 1 ≤ trackHeight) :
    (totalRows ≤ visibleRows →
      computeScrollbar totalRows visibleRows scrollOffset trackHeight =
        { thumbStart := 0, thumbEnd := trackHeight,
          trackHeight := trackHeight }) ∧
    (¬ totalRows ≤ visibleRows →
      (computeScrollbar totalRows visibleRows scrollOffset trackHeight).thumbStart =
        ⌊(scrollOffset : ℚ) / ((max 1 (totalRows - visibleRows) : ℕ) : ℚ) *
          ((trackHeight : ℚ) -
            ((max 1 ⌊(visibleRows : ℚ) / (totalRows : ℚ) * (trackHeight : ℚ) +
              1/2⌋ : ℤ) : ℚ)) + 1/2⌋ ∧
      (computeScrollbar totalRows visibleRows scrollOffset trackHeight).thumbEnd =
        (computeScrollbar totalRows visibleRows scrollOffset trackHeight).thumbStart +
          max 1 ⌊(visibleRows : ℚ) / (totalRows : ℚ) * (trackHeight : ℚ) + 1/2⌋) ∧
    (computeScrollbar totalRows visibleRows scrollOffset trackHeight).thumbEnd -
      (computeScrollbar totalRows visibleRows scrollOffset trackHeight).thumbStart ≥ 1 := by
  have hsize : ∀ _ : totalRows > visibleRows,
      jsRoundDiv ((visibleRows : ℤ) * (trackHeight : ℤ)) totalRows =
        ⌊(visibleRows : ℚ) / (totalRows : ℚ) * (trackHeight : ℚ) + 1/2⌋ := by
    intro h
    have hT : 0 < totalRows := by omega
    rw [jsRoundDiv_eq_floor _ _ hT]
    congr 1
    have hT' : ((totalRows : ℚ)) ≠ 0 := by positivity
    push_cast
    field_simp
  refine ⟨fun h => by simp [computeScrollbar, h], ?_, ?_⟩
  · intro h
    have h' : totalRows > visibleRows := by omega
    have hms : 0 < max 1 (totalRows - visibleRows) :=
      lt_of_lt_of_le one_pos (le_max_left _ _)
    have hms' : ((max 1 (totalRows - visibleRows) : ℕ) : ℚ) ≠ 0 := by positivity
    simp only [computeScrollbar, if_neg h]
    rw [hsize h']
    refine ⟨?_, rfl⟩
    rw [jsRoundDiv_eq_floor _ _ hms]
    congr 1
    push_cast
    field_simp
  · by_cases h : totalRows ≤ visibleRows
    · simp only [computeScrollbar, if_pos h]
      show (trackHeight : ℤ) - 0 ≥ 1
      omega
    · simp only [computeScrollbar, if_neg h]
      have : (1 : ℤ) ≤ max 1 (jsRoundDiv ((visibleRows : ℤ) * (trackHeight : ℤ)) totalRows) :=
        le_max_left _ _
      omega

/-- Witness for C7 at `totalRows = 100`, `visibleRows = 20`,
`scrollOffset = 40`, `trackHeight = 20`. -/
theorem computeScrollbar_spec_witness :
    1 ≤ 20 ∧
      (computeScrollbar 100 20 40 20).thumbEnd -
        (computeScrollbar 100 20 40 20).thumbStart ≥ 1 :=
  ⟨by decide, (computeScrollbar_spec 100 20 40 20 (by decide)).2.2⟩

/-- C2: the indexability classifier evaluates its rules in the strict
order noindex-meta > X-Robots-Tag > canonical-mismatch > status ≥ 400 >
indexable and returns the reason of the first rule that fires, for every
combination of page signals and every URL normalizer; in particular a page
whose robots meta contains "noindex" gets reason "noindex meta tag"
regardless of the status code, and a page matching no rule gets
`(isIndexable = true, reason = null)`. -/
theorem indexability_rule_order (norm : String → Option String → String)
    (sig : IndexabilitySignals) :
    (jsIncludes (optLower sig.robotsMetaAttr) "noindex" = true →
      indexability norm sig = (false, some "noindex meta tag")) ∧
    (jsIncludes (optLower sig.robotsMetaAttr) "noindex" = false →
      jsIncludes (jsToLower (headerJoin sig.xRobotsTag)) "noindex" = true →
      indexability norm sig = (false, some "X-Robots-Tag noindex")) ∧
    (∀ c : String,
      jsIncludes (optLower sig.robotsMetaAttr) "noindex" = false →
      jsIncludes (jsToLower (headerJoin sig.xRobotsTag)) "noindex" = false →
      sig.canonicalAttr = some c → c ≠ "" →
      norm c (some (jsOrUrl sig.loadedUrl sig.url)) ≠
        norm (jsOrUrl sig.loadedUrl sig.url) none →
      indexability norm sig = (false, some "canonical mismatch")) ∧
    (jsIncludes (optLower sig.robotsMetaAttr) "noindex" = false →
      jsIncludes (jsToLower (headerJoin sig.xRobotsTag)) "noindex" = false →
      (∀ c : String, sig.canonicalAttr = some c → c ≠ "" →
        norm c (some (jsOrUrl sig.loadedUrl sig.url)) =
          norm (jsOrUrl sig.loadedUrl sig.url) none) →
      sig.statusCode ≥ 400 →
      indexability norm sig =
        (false, some ("HTTP " ++ natToString sig.statusCode))) ∧
    (jsIncludes (optLower sig.robotsMetaAttr) "noindex" = false →
      jsIncludes (jsToLower (headerJoin sig.xRobotsTag)) "noindex" = false →
      (∀ c : String, sig.canonicalAttr = some c → c ≠ "" →
        norm c (some (jsOrUrl sig.loadedUrl sig.url)) =
          norm (jsOrUrl sig.loadedUrl sig.url) none) →
      ¬ sig.statusCode ≥ 400 →
      indexability norm sig = (true, none)) := by
  refine ⟨?_, ?_, ?_, ?_, ?_⟩
  · intro h1
    simp [indexability, h1]
  · intro h1 h2
    simp [indexability, h1, h2]
  · intro c h1 h2 hc hc0 hne
    simp [indexability, h1, h2, hc, hc0, hne]
  · intro h1 h2 hcanon h4
    unfold indexability
    simp only [h1, h2, Bool.false_eq_true, if_false]
    cases hc : sig.canonicalAttr with
    | none => simp [h4]
    | some c =>
      by_cases hc0 : c = ""
      · simp [hc0, h4]
      · simp [hc0, hcanon c hc hc0, h4]
  · intro h1 h2 hcanon h4
    unfold indexability
    simp only [h1, h2, Bool.false_eq_true, if_false]
    cases hc : sig.canonicalAttr with
    | none => simp [h4]
    | some c =>
      by_cases hc0 : c = ""
      · simp [hc0, h4]
      · simp [hc0, hcanon c hc hc0, h4]

/-- Witness for C2: robots meta "noindex" together with status 404 yields
reason "noindex meta tag", not "HTTP 404". -/
theorem indexability_rule_order_witness :
    indexability (fun u _ => u)
      { robotsMetaAttr := some "noindex", xRobotsTag := .absent,
        canonicalAttr := none, url := "https://example.com/x",
        loadedUrl := none, statusCode := 404 } =
      (false, some "noindex meta tag") :=
  (indexability_rule_order (fun u _ => u) _).1 (by decide)

/-- C4: `indexableCount + nonIndexableCount = pagesCrawled` holds for the
initial stats and is preserved by every page-completion event (HTML and
non-HTML branches) and every failed-fetch event (content-type-rejection
and error branches), hence after every flush. -/
theorem stats_invariant_preserved :
    statsInvariant initialStats ∧
    (∀ (s : EngineState) (req : CrawlEngine.RequestInfo)
        (cheerio : Option CrawlEngine.SeoData),
      statsInvariant s.stats →
      statsInvariant (CrawlEngine.requestHandler s req cheerio).1.stats) ∧
    (∀ (s : EngineState) (url : String) (loadedUrl : Option String)
        (errorMessage : String) (mimeMatch : Option String),
      statsInvariant s.stats →
      statsInvariant
        (CrawlEngine.failedRequestHandler s url loadedUrl errorMessage
          mimeMatch).1.stats) := by
  refine ⟨rfl, ?_, ?_⟩
  · intro s req cheerio h
    simp only [CrawlEngine.requestHandler, statsInvariant] at h ⊢
    split
    · dsimp only; omega
    · dsimp only; omega
  · intro s url loadedUrl errorMessage mimeMatch h
    simp only [statsInvariant] at h
    cases mimeMatch with
    | some ct =>
      simp only [CrawlEngine.failedRequestHandler, statsInvariant]
      omega
    | none =>
      simp only [CrawlEngine.failedRequestHandler, statsInvariant]
      omega

/-- Witness for C4: the invariant holds after a content-type-rejection
event on a fresh engine. -/
theorem stats_invariant_preserved_witness :
    statsInvariant
      (CrawlEngine.failedRequestHandler initialEngineState
        "https://example.com/a.pdf" none
        "served Content-Type application/pdf, only text/html are allowed"
        (some "application/pdf")).1.stats :=
  stats_invariant_preserved.2.2 initialEngineState "https://example.com/a.pdf"
    none "served Content-Type application/pdf, only text/html are allowed"
    (some "application/pdf") rfl

/-- C3: a failed fetch recognized as a disallowed-content-type rejection
synthesizes a non-indexable "non-HTML content" record, appends it to the
page list, increments `pagesCrawled` and `nonIndexableCount`, invokes the
page-crawled callback, and leaves the error counter untouched with no
error callback; every other failed fetch increments the error counter and
invokes the error callback with the failure message and originating URL,
leaving `pagesCrawled` and the page list unchanged. -/
theorem failedRequestHandler_spec :
    (∀ (s : EngineState) (url : String) (loadedUrl : Option String)
        (errorMessage ct : String),
      ∃ pd : PageData,
        pd.isIndexable = false ∧
        pd.indexabilityReason = some "non-HTML content" ∧
        (CrawlEngine.failedRequestHandler s url loadedUrl errorMessage
          (some ct)).1.pages = s.pages ++ [pd] ∧
        (CrawlEngine.failedRequestHandler s url loadedUrl errorMessage
          (some ct)).1.stats.pagesCrawled = s.stats.pagesCrawled + 1 ∧
        (CrawlEngine.failedRequestHandler s url loadedUrl errorMessage
          (some ct)).1.stats.nonIndexableCount =
            s.stats.nonIndexableCount + 1 ∧
        (CrawlEngine.failedRequestHandler s url loadedUrl errorMessage
          (some ct)).1.stats.errors = s.stats.errors ∧
        (CrawlEngine.failedRequestHandler s url loadedUrl errorMessage
          (some ct)).2 = [EngineEvent.pageCrawled pd]) ∧
    (∀ (s : EngineState) (url : String) (loadedUrl : Option String)
        (errorMessage : String),
      (CrawlEngine.failedRequestHandler s url loadedUrl errorMessage
        none).1.stats.errors = s.stats.errors + 1 ∧
      (CrawlEngine.failedRequestHandler s url loadedUrl errorMessage
        none).1.stats.pagesCrawled = s.stats.pagesCrawled ∧
      (CrawlEngine.failedRequestHandler s url loadedUrl errorMessage
        none).1.pages = s.pages ∧
      (CrawlEngine.failedRequestHandler s url loadedUrl errorMessage
        none).2 = [EngineEvent.crawlError errorMessage url]) := by
  constructor
  · intro s url loadedUrl errorMessage ct
    exact ⟨{ url := url, finalUrl := jsOrUrl loadedUrl url, statusCode := 200,
             responseTimeMs := 0, contentType := ct, title := "", h1 := "",
             metaDescription := "", wordCount := 0, isIndexable := false,
             indexabilityReason := some "non-HTML content" },
           rfl, rfl, rfl, rfl, rfl, rfl, rfl⟩
  · intro s url loadedUrl errorMessage
    exact ⟨rfl, rfl, rfl, rfl⟩

theorem stop_of_not_running (s : EngineState) (now : ℤ)
    (te : Option String) (hasLog : Bool) (h : s.isRunning = false) :
    CrawlEngine.stop s now te hasLog = (s, []) := by
  unfold CrawlEngine.stop
  simp [h]

/-- C5: `stop()` on a running session resumes if paused, cancels the stats
timer, releases the crawler with any teardown failure surfaced only as a
log callback (never propagated), leaves the page list untouched, and
invokes the completion callback exactly once — with the final page list
and final stats snapshot — iff any pages were processed; a second call, or
a call when no session is running, changes nothing and invokes no
callback. -/
theorem stop_spec :
    (∀ (s : EngineState) (now : ℤ) (teardownError : Option String)
        (hasLogCallback : Bool), s.isRunning = true →
      (CrawlEngine.stop s now teardownError hasLogCallback).1.isRunning = false ∧
      (CrawlEngine.stop s now teardownError hasLogCallback).1.isPaused = false ∧
      (CrawlEngine.stop s now teardownError hasLogCallback).1.statsInterval = false ∧
      (CrawlEngine.stop s now teardownError hasLogCallback).1.crawler = false ∧
      (CrawlEngine.stop s now teardownError hasLogCallback).1.pages = s.pages ∧
      countComplete (CrawlEngine.stop s now teardownError hasLogCallback).2 =
        (if s.pages.length > 0 ∨ s.stats.pagesCrawled > 0 then 1 else 0) ∧
      (s.pages.length > 0 ∨ s.stats.pagesCrawled > 0 →
        EngineEvent.crawlComplete s.pages
            (CrawlEngine.stop s now teardownError hasLogCallback).1.stats ∈
          (CrawlEngine.stop s now teardownError hasLogCallback).2) ∧
      (∀ m : String, teardownError = some m → s.crawler = true →
        hasLogCallback = true →
        EngineEvent.logMessage "ERROR"
            ("Error during crawler teardown: " ++ m) ∈
          (CrawlEngine.stop s now teardownError hasLogCallback).2) ∧
      (∀ (now2 : ℤ) (te2 : Option String) (log2 : Bool),
        CrawlEngine.stop
            (CrawlEngine.stop s now teardownError hasLogCallback).1
            now2 te2 log2 =
          ((CrawlEngine.stop s now teardownError hasLogCallback).1, []))) ∧
    (∀ (s : EngineState) (now : ℤ) (te : Option String) (hasLog : Bool),
      s.isRunning = false → CrawlEngine.stop s now te hasLog = (s, [])) := by
  constructor
  · intro s now te log hrun
    obtain ⟨cr, si, pages, run, paused, pausedAt, stats⟩ := s
    simp only at hrun
    subst hrun
    have hstop : ∀ s2 : EngineState, s2.isRunning = false →
        ∀ (now2 : ℤ) (te2 : Option String) (log2 : Bool),
        CrawlEngine.stop s2 now2 te2 log2 = (s2, []) :=
      fun s2 h2 now2 te2 log2 => stop_of_not_running s2 now2 te2 log2 h2
    cases paused <;> cases cr <;> cases te <;> cases log <;>
      by_cases hz : pausedAt > 0 <;>
      by_cases hc : pages.length > 0 ∨ stats.pagesCrawled > 0 <;>
      refine ⟨?_, ?_, ?_, ?_, ?_, ?_, ?_, ?_, fun now2 te2 log2 =>
        hstop _ (by simp [CrawlEngine.stop, CrawlEngine.resume, hz, hc])
          now2 te2 log2⟩ <;>
      simp [CrawlEngine.stop, CrawlEngine.resume, countComplete, hz, hc]
  · intro s now te log h
    exact stop_of_not_running s now te log h

/-- Witness for C5: stopping the sample running session clears
`isRunning`. -/
theorem stop_spec_witness :
    (CrawlEngine.stop sampleRunningState 100 none false).1.isRunning = false :=
  (stop_spec.1 sampleRunningState 100 none false rfl).1

/-- C6: on a running, unpaused session, `pause()` at time `t0 > 0`
followed by `resume()` at time `t1` adds exactly `t1 - t0` to the
cumulative `pausedDurationMs`; `pause()` is a no-op unless the session is
running and not already paused; and the sidebar's pages-per-second metric
is computed over `elapsed = now - startTime - pausedDurationMs`, so paused
time is excluded. -/
theorem pause_resume_accounting :
    (∀ (s : EngineState) (t0 t1 : ℤ), s.isRunning = true →
      s.isPaused = false → 0 < t0 →
      (CrawlEngine.resume (CrawlEngine.pause s t0) t1).stats.pausedDurationMs =
        s.stats.pausedDurationMs + (t1 - t0)) ∧
    (∀ (s : EngineState) (now : ℤ), s.isRunning = false →
      CrawlEngine.pause s now = s) ∧
    (∀ (s : EngineState) (now : ℤ), s.isPaused = true →
      CrawlEngine.pause s now = s) ∧
    (∀ (stats : CrawlStats) (now : ℤ), stats.startTime > 0 →
      elapsedMs stats now = now - stats.startTime - stats.pausedDurationMs) ∧
    (∀ (stats : CrawlStats) (now : ℤ), stats.startTime > 0 →
      ((now - stats.startTime - stats.pausedDurationMs : ℤ) : ℚ) / 1000 > 0 →
      pagesPerSecond stats now =
        (stats.pagesCrawled : ℚ) /
          (((now - stats.startTime - stats.pausedDurationMs : ℤ) : ℚ) / 1000)) := by
  refine ⟨?_, ?_, ?_, ?_, ?_⟩
  · intro s t0 t1 hrun hp ht0
    simp [CrawlEngine.pause, CrawlEngine.resume, hrun, hp, ht0]
  · intro s now h
    simp [CrawlEngine.pause, h]
  · intro s now h
    simp [CrawlEngine.pause, h]
  · intro stats now h
    simp [elapsedMs, h]
  · intro stats now h hpos
    have he : elapsedMs stats now =
        now - stats.startTime - stats.pausedDurationMs := by
      simp [elapsedMs, h]
    simp only [pagesPerSecond, he]
    rw [if_pos hpos]

/-- Witness for C6: a 5000 ms pause (from `t0 = 1000` to `t1 = 6000`) on
the sample running session adds exactly 5000 to `pausedDurationMs`. -/
theorem pause_resume_accounting_witness :
    (CrawlEngine.resume (CrawlEngine.pause sampleRunningState 1000)
        6000).stats.pausedDurationMs =
      sampleRunningState.stats.pausedDurationMs + 5000 := by
  have h := pause_resume_accounting.1 sampleRunningState 1000 6000 rfl rfl
    (by decide)
  rw [h]
  decide

theorem uiStep_conservation (u : UIState) (e : UIEvent) :
    (uiStep u e).pages ++ (uiStep u e).pageBuffer =
      u.pages ++ u.pageBuffer ++
        (match e with | .append p => [p] | _ => []) := by
  cases e with
  | append p => simp [uiStep, uiOnPageCrawled]
  | tick =>
    by_cases h : u.flushInterval
    · simp only [uiStep, h, if_true]
      unfold flushTick
      split <;> simp
    · simp [uiStep, h]
  | complete =>
    simp only [uiStep, uiOnCrawlComplete, cancelFlushTimer, finalFlush]
    split_ifs <;> simp_all

/-- C1: flushes are atomic take-all-and-clear steps — every scheduling
step either leaves the display list unchanged or appends the entire
buffered batch, so the display-visible list is always the pre-drain or the
post-drain contents, never a partial batch; an arbitrary interleaving of
appends, ticks and completion loses and duplicates nothing; and on
graceful completion the coordinator first cancels its flush timer, then
performs exactly one final flush of whatever remains. -/
theorem flush_atomicity :
    (∀ (u : UIState) (e : UIEvent),
      (uiStep u e).pages = u.pages ∨
      (uiStep u e).pages = u.pages ++ u.pageBuffer) ∧
    (∀ u : UIState,
      flushTick u = u ∨
      ((flushTick u).pages = u.pages ++ u.pageBuffer ∧
       (flushTick u).pageBuffer = [])) ∧
    (∀ (u : UIState) (events : List UIEvent),
      (uiRun u events).pages ++ (uiRun u events).pageBuffer =
        u.pages ++ u.pageBuffer ++ appendedPages events) ∧
    (∀ u : UIState,
      uiOnCrawlComplete u = finalFlush (cancelFlushTimer u) ∧
      (uiOnCrawlComplete u).flushInterval = false ∧
      (uiOnCrawlComplete u).pages = u.pages ++ u.pageBuffer ∧
      (uiOnCrawlComplete u).pageBuffer = []) := by
  refine ⟨?_, ?_, ?_, ?_⟩
  · intro u e
    cases e with
    | append p => exact Or.inl rfl
    | tick =>
      by_cases h : u.flushInterval
      · simp only [uiStep, h, if_true]
        unfold flushTick
        split
        · exact Or.inr rfl
        · exact Or.inl rfl
      · simp [uiStep, h]
    | complete =>
      refine Or.inr ?_
      simp only [uiStep, uiOnCrawlComplete, cancelFlushTimer, finalFlush]
      split_ifs <;> simp_all
  · intro u
    unfold flushTick
    split
    · exact Or.inr ⟨rfl, rfl⟩
    · exact Or.inl rfl
  · intro u events
    induction events generalizing u with
    | nil => simp [uiRun, appendedPages]
    | cons e evs ih =>
      have hstep := uiStep_conservation u e
      have hrun : uiRun u (e :: evs) = uiRun (uiStep u e) evs := rfl
      rw [hrun, ih, hstep]
      cases e <;> simp [appendedPages]
  · intro u
    refine ⟨rfl, ?_, ?_, ?_⟩
    · simp only [uiOnCrawlComplete, cancelFlushTimer, finalFlush]
      split_ifs <;> simp_all
    · simp only [uiOnCrawlComplete, cancelFlushTimer, finalFlush]
      split_ifs <;> simp_all
    · simp only [uiOnCrawlComplete, cancelFlushTimer, finalFlush]
      split_ifs <;> rfl


theorem isPrefixOf_append_self (l r : List Char) : l.isPrefixOf (l ++ r) = true :=
  List.isPrefixOf_iff_prefix.mpr ⟨r, rfl⟩

theorem jsStartsWith_append_self (p s : String) : jsStartsWith (p ++ s) p = true := by
  unfold jsStartsWith
  have h : (p ++ s).data = p.data ++ s.data := rfl
  rw [h]
  exact isPrefixOf_append_self _ _

theorem schemeSplit_https (l : List Char) :
    schemeSplit ('h' :: 't' :: 't' :: 'p' :: 's' :: ':' :: l) =
      some (['h', 't', 't', 'p', 's'], l) := rfl

theorem stringMk_map_ne_empty {l : List Char} (f : Char → Char) (hl : l ≠ []) :
    String.mk (l.map f) ≠ "" := by
  intro he
  apply hl
  have hd := congrArg String.data he
  simpa using hd

theorem parseURL_https_scheme (s : String) (r : URLRecord)
    (h : parseURL ("https://" ++ s) = .ok r) : r.scheme = "https" := by
  unfold parseURL at h
  rw [show ("https://" ++ s).data =
      'h' :: 't' :: 't' :: 'p' :: 's' :: ':' :: ('/' :: '/' :: s.data) from rfl,
    schemeSplit_https] at h
  dsimp only at h
  rw [show (String.mk (List.map Char.toLower ['h', 't', 't', 'p', 's'])) = "https"
      from rfl] at h
  simp only [show (('h' : Char).isAlpha) = true from rfl, not_true, if_false] at h
  rw [if_neg (by simp)] at h
  split_ifs at h <;> cases h <;> rfl

theorem parseURL_ok_hostname_ne (s : String) (r : URLRecord)
    (h : parseURL s = .ok r) : r.hostname ≠ "" := by
  unfold parseURL at h
  rcases hsp : schemeSplit s.data with _ | ⟨schemeCs, rest⟩ <;> rw [hsp] at h
  · cases h
  · rcases schemeCs with _ | ⟨c0, cs⟩
    · cases h
    · dsimp only at h
      split_ifs at h <;> cases h <;>
        exact stringMk_map_ne_empty _ (by assumption)

end MumblingToad

namespace MumblingToad

theorem href_startsWith_https (u : URLRecord) (h : u.scheme = "https") :
    jsStartsWith u.href "https://" = true := by
  unfold URLRecord.href
  rw [h, show ("https" ++ "://" : String) = "https://" from rfl]
  simp only [String.append_assoc]
  exact jsStartsWith_append_self _ _

/-- C9: the URL normalizer prepends `https://` when the trimmed input has
no `http(s)://` scheme (so every such accepted input yields an `https://`
URL), rejects empty hostnames (the parser never produces one, and every
parse failure becomes `Invalid URL format`) and hostnames with characters
outside `[a-zA-Z0-9.-]`, strips a single trailing slash from non-root
paths and preserves the root slash:
`normalizeUrl "example.com/path/" = "https://example.com/path"` and
`normalizeUrl "example.com/" = "https://example.com/"`. -/
theorem normalizeUrl_spec :
    normalizeUrl "example.com/path/" = .ok "https://example.com/path" ∧
    normalizeUrl "example.com/" = .ok "https://example.com/" ∧
    (∀ input out : String, hasHttpScheme (jsTrim input) = false →
      normalizeUrl input = .ok out → jsStartsWith out "https://" = true) ∧
    (∀ (s : String) (r : URLRecord), parseURL s = .ok r → r.hostname ≠ "") ∧
    (∀ (input e : String),
      parseURL (if ¬ hasHttpScheme (jsTrim input) then
          "https://" ++ jsTrim input else jsTrim input) = .error e →
      normalizeUrl input = .error "Invalid URL format") ∧
    (∀ (input : String) (r : URLRecord),
      parseURL (if ¬ hasHttpScheme (jsTrim input) then
          "https://" ++ jsTrim input else jsTrim input) = .ok r →
      hostnameOk r.hostname = false →
      normalizeUrl input = .error "Invalid URL format") ∧
    (∀ (input : String) (r : URLRecord),
      parseURL (if ¬ hasHttpScheme (jsTrim input) then
          "https://" ++ jsTrim input else jsTrim input) = .ok r →
      (r.scheme = "http" ∨ r.scheme = "https") →
      hostnameOk r.hostname = true →
      jsEndsWith r.pathname "/" = true → r.pathname.data.length > 1 →
      normalizeUrl input =
        .ok ({ r with pathname := String.mk r.pathname.data.dropLast }).href) ∧
    (∀ (input : String) (r : URLRecord),
      parseURL (if ¬ hasHttpScheme (jsTrim input) then
          "https://" ++ jsTrim input else jsTrim input) = .ok r →
      (r.scheme = "http" ∨ r.scheme = "https") →
      hostnameOk r.hostname = true →
      r.pathname = "/" →
      normalizeUrl input = .ok r.href) := by
  refine ⟨by decide, by decide, ?_, parseURL_ok_hostname_ne, ?_, ?_, ?_, ?_⟩
  · intro input out hs hok
    unfold normalizeUrl at hok
    dsimp only at hok
    rw [if_pos (show ¬ hasHttpScheme (jsTrim input) = true by simp [hs])] at hok
    rcases hp : parseURL ("https://" ++ jsTrim input) with e | r <;> rw [hp] at hok
    · cases hok
    · have hsch := parseURL_https_scheme _ _ hp
      dsimp only at hok
      split_ifs at hok <;> cases hok <;>
        exact href_startsWith_https _ hsch
  · intro input e h
    unfold normalizeUrl
    dsimp only
    rw [h]
  · intro input r h hfalse
    unfold normalizeUrl
    dsimp only
    rw [h]
    dsimp only
    split_ifs <;> simp_all
  · intro input r h hscheme hhost hslash hlen
    unfold normalizeUrl
    dsimp only
    rw [h]
    dsimp only
    split_ifs <;> simp_all
  · intro input r h hscheme hhost hroot
    unfold normalizeUrl
    dsimp only
    rw [h]
    dsimp only
    split_ifs <;> simp_all [hroot]


/-- Witness for C9: a scheme-less input is accepted with an `https://`
result. -/
theorem normalizeUrl_spec_witness :
    jsStartsWith "https://example.com/" "https://" = true :=
  normalizeUrl_spec.2.2.1 "example.com" "https://example.com/"
    (by decide) (by decide)

end MumblingToad
